import Mathlib

/-!
# DirectoriesPrefs: the temporary-directory preferences panel

A shallow embedding of `src/prefs/DirectoriesPrefs.cpp` (Audacity): the three
event handlers `OnTempBrowse`, `OnTempText` and `Validate`, over an explicit
model of the collaborators they call (wxFileName, the host directory tree,
the message boxes, the preferences store).

Every handler is a function on an explicit `World`: the directory tree of the
host and the trace of the calls the handler made to its collaborators, in
program order.

Validate and OnTempText read the Location text in the wxPATH_UNIX format.
OnTempBrowse builds and prints its path objects in the native format of the
build, wxPATH_DOS on Windows and wxPATH_UNIX on macOS and elsewhere; in the
wxPATH_UNIX format its methods are proved to be the ones Validate uses.
-/

set_option autoImplicit false

namespace Audacity

/-! ## wxFileName (directory paths) -/

/-- Build target, which selects the session-directory name and the native
path format. -/
inductive Platform
  | WXMAC
  | WXMSW
  | other
deriving DecidableEq, Repr

/-- Path formats of wxWidgets that the builds use. -/
inductive wxPathFormat
  | wxPATH_UNIX
  | wxPATH_DOS
deriving DecidableEq, Repr

/-- Format wxPATH_NATIVE as wxFileName::GetFormat resolves it in a build:
wxPATH_DOS on Windows, wxPATH_UNIX on macOS and elsewhere. -/
def wxPATH_NATIVE : Platform → wxPathFormat
  | .WXMAC => .wxPATH_UNIX
  | .WXMSW => .wxPATH_DOS
  | .other => .wxPATH_UNIX

/-- Path object of wxWidgets, for the directory paths the panel handles: the
volume `m_volume` (empty in the wxPATH_UNIX format), the `m_relative` flag and
the directory segments `m_dirs`. Name and extension are empty for every object
the panel builds (SetPath, AssignDir and the two-argument constructor with an
empty name). -/
structure wxFileName where
  m_volume : String
  m_relative : Bool
  m_dirs : List String
deriving DecidableEq, Repr

/-- Flag wxPATH_GET_VOLUME of wxFileName::GetPath. -/
def wxPATH_GET_VOLUME : Nat := 0x0001
/-- Flag wxPATH_GET_SEPARATOR of wxFileName::GetPath. -/
def wxPATH_GET_SEPARATOR : Nat := 0x0002
/-- Flag wxPATH_MKDIR_FULL of wxFileName::Mkdir. -/
def wxPATH_MKDIR_FULL : Nat := 0x0001
/-- Answer code wxYES of a message box. -/
def wxYES : Int := 0x0002
/-- Return code wxID_CANCEL of a modal dialog. -/
def wxID_CANCEL : Int := 5101
/-- Return code wxID_OK of a modal dialog. -/
def wxID_OK : Int := 5100

/-- Tokens of a character sequence cut at the path separator, empty tokens
dropped (wxStringTokenizer followed by the empty-token test of SetPath);
`cur` holds the characters of the token being read, newest first. -/
def tokenize : List Char → List Char → List String
  | [], cur => if cur.isEmpty then [] else [String.mk cur.reverse]
  | c :: cs, cur =>
    if c = '/' then
      (if cur.isEmpty then tokenize cs [] else String.mk cur.reverse :: tokenize cs [])
    else tokenize cs (c :: cur)

namespace wxFileName

/-- Default-constructed object (wxFileName::Clear): relative, no segments. -/
def Clear : wxFileName := ⟨"", true, []⟩

/-- Method wxFileName::SetPath in the wxPATH_UNIX format, on which Validate and
OnTempText are modelled: an empty string gives the relative empty path;
otherwise the path is absolute exactly when it starts with a separator, and
its segments are the non-empty tokens. The format has no volume. -/
def SetPath (pathOrig : String) : wxFileName :=
  match pathOrig.data with
  | [] => ⟨"", true, []⟩
  | leadingChar :: rest => ⟨"", leadingChar != '/', tokenize (leadingChar :: rest) []⟩

/-- Segments joined by the separator; a trailing separator only on request. -/
def joinDirs (withSep : Bool) : List String → String
  | [] => ""
  | [d] => if withSep then d ++ "/" else d
  | d :: e :: ds => d ++ "/" ++ joinDirs withSep (e :: ds)

/-- Method wxFileName::GetPath(flags) in the wxPATH_UNIX format, which prints
no volume. -/
def GetPath (f : wxFileName) (flags : Nat) : String :=
  (if f.m_relative then "" else "/") ++ joinDirs (flags.testBit 1) f.m_dirs

/-- Method wxFileName::GetDirs. -/
def GetDirs (f : wxFileName) : List String := f.m_dirs

/-- Method wxFileName::AppendDir. -/
def AppendDir (f : wxFileName) (dir : String) : wxFileName :=
  { f with m_dirs := f.m_dirs ++ [dir] }

/-- Method wxFileName::RemoveLastDir. -/
def RemoveLastDir (f : wxFileName) : wxFileName :=
  { f with m_dirs := f.m_dirs.dropLast }

/-! ### Either path format

The chooser of OnTempBrowse hands back a path of the build's native format, so
the methods OnTempBrowse calls are modelled for wxPATH_DOS as well: both
separators, drive letters, UNC shares and unique volume names. -/

/-- Function wxFileName::IsPathSeparator. -/
def IsPathSeparator (ch : Char) : wxPathFormat → Bool
  | .wxPATH_UNIX => ch == '/'
  | .wxPATH_DOS => ch == '\\' || ch == '/'

/-- Function wxFileName::GetPathSeparator, the first of the separators. -/
def GetPathSeparator : wxPathFormat → Char
  | .wxPATH_UNIX => '/'
  | .wxPATH_DOS => '\\'

/-- Membership in wxFileName::GetPathTerminators: the volume separator, which
only wxPATH_DOS has, and the path separators. -/
def IsPathTerminator (ch : Char) : wxPathFormat → Bool
  | .wxPATH_UNIX => ch == '/'
  | .wxPATH_DOS => ch == ':' || ch == '\\' || ch == '/'

/-- Position of the first character with the property (find_first_of). -/
def findFirst (p : Char → Bool) : List Char → Option Nat
  | [] => none
  | c :: cs => if p c then some 0 else (findFirst p cs).map (· + 1)

/-- Position of the last character with the property (find_last_of). -/
def findLast (p : Char → Bool) : List Char → Option Nat
  | [] => none
  | c :: cs =>
    match findLast p cs with
    | some i => some (i + 1)
    | none => if p c then some 0 else none

/-- Tokens of a character sequence cut at the separators of the format, empty
tokens dropped; `cur` holds the token being read, newest character first. -/
def tokenizeIn (format : wxPathFormat) : List Char → List Char → List String
  | [], cur => if cur.isEmpty then [] else [String.mk cur.reverse]
  | c :: cs, cur =>
    if IsPathSeparator c format then
      (if cur.isEmpty then tokenizeIn format cs [] else
        String.mk cur.reverse :: tokenizeIn format cs [])
    else tokenizeIn format cs (c :: cur)

/-- Function IsUNCPath: a DOS path of at least four characters that starts
with two separators and a character that is none. -/
def IsUNCPath : List Char → wxPathFormat → Bool
  | c0 :: c1 :: c2 :: _ :: _, .wxPATH_DOS =>
    IsPathSeparator c0 .wxPATH_DOS && IsPathSeparator c1 .wxPATH_DOS &&
      !IsPathSeparator c2 .wxPATH_DOS
  | _, _ => false

/-- Function IsMSWUniqueVolumeNamePath: a DOS path that starts with the unique
volume name, 49 characters ending in a backslash. -/
def IsMSWUniqueVolumeNamePath (path : List Char) (format : wxPathFormat) : Bool :=
  format == .wxPATH_DOS && decide (49 ≤ path.length) &&
    path.take 11 == "\\\\?\\Volume\x7b".data && path.get? 48 == some '\\'

/-- Function wxFileName::SplitVolume: the volume and the rest of the path. A
unique volume name and a UNC share are first rewritten into the form
volume, colon, backslash, path; then the DOS format cuts at the first colon
that is not the first character. -/
def SplitVolume (fullpathWithVolume : List Char) (format : wxPathFormat) :
    List Char × List Char :=
  let fullpath : List Char :=
    if IsMSWUniqueVolumeNamePath fullpathWithVolume format then
      (fullpathWithVolume.take 48 ++ ':' :: '\\' :: fullpathWithVolume.drop 49).drop 4
    else if IsUNCPath fullpathWithVolume format then
      let fullpath := fullpathWithVolume.drop 2
      match findFirst (fun ch => IsPathTerminator ch format) fullpath with
      | some posFirstSlash =>
        fullpath.take posFirstSlash ++ ':' :: '\\' :: fullpath.drop (posFirstSlash + 1)
      | none => fullpath
    else fullpathWithVolume
  match format with
  | .wxPATH_UNIX => ([], fullpath)
  | .wxPATH_DOS =>
    match findFirst (fun ch => ch == ':') fullpath with
    | none => ([], fullpath)
    | some 0 => ([], fullpath)
    | some (posFirstColon + 1) =>
      (fullpath.take (posFirstColon + 1), fullpath.drop (posFirstColon + 1 + 1))

/-- Method wxFileName::SetPath(path, format) on a cleared object. A volume in
the path makes the object absolute; the leading character of the rest, when
there is one, then decides, and the segments are the non-empty tokens. -/
def SetPathIn (pathOrig : List Char) (format : wxPathFormat) : wxFileName :=
  match pathOrig with
  | [] => ⟨"", true, []⟩
  | _ :: _ =>
    let sv := SplitVolume pathOrig format
    match sv.2 with
    | [] => ⟨String.mk sv.1, sv.1.isEmpty, []⟩
    | leadingChar :: rest =>
      ⟨String.mk sv.1, !IsPathSeparator leadingChar format,
        tokenizeIn format (leadingChar :: rest) []⟩

/-- Method wxFileName::Assign(fullpath, fullname, format), the body of AssignDir
and of the two-argument constructor: the path gets a trailing separator when
it has none, SplitPath takes the volume and the path up to the last
terminator, a path that still looks like a UNC share loses one leading
separator, SetPath parses it and the volume is stored. The name is empty in
every call of the panel. -/
def Assign (fullpathOrig : String) (_fullname : String) (format : wxPathFormat) : wxFileName :=
  let fullpath : List Char :=
    match fullpathOrig.data.getLast? with
    | none => []
    | some last =>
      if IsPathSeparator last format then fullpathOrig.data
      else fullpathOrig.data ++ [GetPathSeparator format]
  let sv := SplitVolume fullpath format
  let path : List Char :=
    match findLast (fun ch => IsPathTerminator ch format) sv.2 with
    | none => []
    | some len => sv.2.take (if len = 0 then 1 else len)
  let f := if IsUNCPath path format then SetPathIn (path.drop 1) format else SetPathIn path format
  { f with m_volume := String.mk sv.1 }

/-- Method wxFileName::AssignDir(dir, format). -/
def AssignDir (dir : String) (format : wxPathFormat) : wxFileName := Assign dir "" format

/-- Constructor wxFileName(path, name, format). -/
def mk2 (path : String) (name : String) (format : wxPathFormat) : wxFileName :=
  Assign path name format

/-- Function wxGetVolumeString: nothing in the wxPATH_UNIX format; in the DOS
format a one-letter volume is a drive, a longer one a unique volume name or
a UNC share. -/
def wxGetVolumeString (volume : String) : wxPathFormat → String
  | .wxPATH_UNIX => ""
  | .wxPATH_DOS =>
    if volume.data.isEmpty then ""
    else if 1 < volume.data.length then
      if IsMSWUniqueVolumeNamePath ("\\\\?\\".data ++ volume.data ++ ['\\']) .wxPATH_DOS
      then "\\\\?\\" ++ volume
      else "\\\\" ++ volume
    else volume ++ ":"

/-- Segments joined by the separator; a trailing separator only on request. -/
def joinDirsIn (sep : Char) (withSep : Bool) : List String → String
  | [] => ""
  | [d] => if withSep then d ++ String.singleton sep else d
  | d :: e :: ds => d ++ String.singleton sep ++ joinDirsIn sep withSep (e :: ds)

/-- Method wxFileName::GetPath(flags, format). -/
def GetPathIn (f : wxFileName) (flags : Nat) (format : wxPathFormat) : String :=
  (if flags.testBit 0 then wxGetVolumeString f.m_volume format else "") ++
    (if f.m_relative then "" else String.singleton (GetPathSeparator format)) ++
    joinDirsIn (GetPathSeparator format) (flags.testBit 1) f.m_dirs

end wxFileName

/-! ## The host directory tree -/

/-- Directory tree of the host: the directories that exist, each with the flag
"the process may create and remove entries in it". The key of a directory is
its path object; the relative path without segments is the current directory.
Plain files are not part of the model. -/
abbrev FileSystem := List (wxFileName × Bool)

namespace FileSystem

/-- Entry of a directory: none when absent, else its write permission. -/
def entry : FileSystem → wxFileName → Option Bool
  | [], _ => none
  | (k, w) :: rest, d => if k = d then some w else entry rest d

/-- Some existing directory lies directly inside `d`. -/
def hasChild (fs : FileSystem) (d : wxFileName) : Bool :=
  fs.any (fun e => decide (e.1.m_volume = d.m_volume) && decide (e.1.m_relative = d.m_relative)
    && decide (e.1.m_dirs ≠ []) && decide (e.1.m_dirs.dropLast = d.m_dirs))

/-- Function wxDirExists on a path object: the empty string names nothing. -/
def dirExists (fs : FileSystem) (d : wxFileName) : Bool :=
  !(d.m_volume.data.isEmpty && d.m_relative && d.m_dirs.isEmpty) && (fs.entry d).isSome

/-- Function wxMkdir: creates one directory; fails (tree unchanged) when the
path has no segment, the directory exists already, or its parent is absent or
not writable. The owner-write bit of `perm` is the new directory's flag. -/
def wxMkdir (fs : FileSystem) (d : wxFileName) (perm : Nat) : Option FileSystem :=
  if d.m_dirs.isEmpty then none
  else if (fs.entry d).isSome then none
  else
    match fs.entry d.RemoveLastDir with
    | some true => some ((d, perm.testBit 7) :: fs)
    | _ => none

/-- Function wxRmdir: removes one directory; fails (tree unchanged) when the
path has no segment, the directory is absent or not empty, or its parent is
not writable. -/
def wxRmdir (fs : FileSystem) (d : wxFileName) : Option FileSystem :=
  if d.m_dirs.isEmpty then none
  else if (fs.entry d).isNone then none
  else if fs.hasChild d then none
  else
    match fs.entry d.RemoveLastDir with
    | some true => some (fs.filter (fun e => decide (e.1 ≠ d)))
    | _ => none

/-- Loop of wxFileName::Mkdir under wxPATH_MKDIR_FULL: walks the segments,
creating each prefix that does not exist; stops at the first failure. -/
def mkdirFull (vol : String) (rel : Bool) (perm : Nat) :
    FileSystem → List String → List String → Bool × FileSystem
  | fs, _, [] => (true, fs)
  | fs, done, d :: rest =>
    let currPath : wxFileName := ⟨vol, rel, done ++ [d]⟩
    if fs.dirExists currPath then mkdirFull vol rel perm fs (done ++ [d]) rest
    else
      match fs.wxMkdir currPath perm with
      | none => (false, fs)
      | some fs1 => mkdirFull vol rel perm fs1 (done ++ [d]) rest

end FileSystem

namespace wxFileName

/-- Method wxFileName::DirExists. -/
def DirExists (f : wxFileName) (fs : FileSystem) : Bool := fs.dirExists f

/-- Method wxFileName::Mkdir(perm, flags): success flag and the tree after. -/
def Mkdir (f : wxFileName) (fs : FileSystem) (perm flags : Nat) : Bool × FileSystem :=
  if flags.testBit 0 then FileSystem.mkdirFull f.m_volume f.m_relative perm fs [] f.m_dirs
  else
    match fs.wxMkdir f perm with
    | none => (false, fs)
    | some fs1 => (true, fs1)

/-- Method wxFileName::Rmdir(): success flag and the tree after. -/
def Rmdir (f : wxFileName) (fs : FileSystem) : Bool × FileSystem :=
  match fs.wxRmdir f with
  | none => (false, fs)
  | some fs1 => (true, fs1)

end wxFileName

/-- Function wxDirExists on a string. -/
def wxDirExists (fs : FileSystem) (path : String) : Bool :=
  fs.dirExists (wxFileName.SetPath path)

/-! ## Collaborators of the panel -/

/-- Message of XO(...).Format(...): the message id and its arguments. -/
structure TranslatableString where
  msgid : String
  args : List String
deriving DecidableEq, Repr

/-- Macro XO without arguments. -/
def XO (msgid : String) : TranslatableString := ⟨msgid, []⟩

/-- Method TranslatableString::Format with one argument. -/
def TranslatableString.Format (t : TranslatableString) (arg : String) : TranslatableString :=
  { t with args := t.args ++ [arg] }

/-- Enumeration FileNames::Operation, the members the panel uses. -/
inductive Operation
  | Temp
  | Open
  | Save
  | Import
  | Export
deriving DecidableEq, Repr

/-- Enumeration FileNames::PathType, the members the panel uses. -/
inductive PathType
  | _None
  | User
deriving DecidableEq, Repr

/-- Modelled from the spec: FileNames::PreferenceKey is not in the sources
given; the spec says the keys of the configuration store "are logical
(operation kind × path-type kind) pairs", so the key is the pair. -/
def PreferenceKey (op : Operation) (type : PathType) : Operation × PathType := (op, type)

/-- Functions and values the panel takes from the rest of the program and from
the host, whose bodies are outside DirectoriesPrefs.cpp. -/
structure Host where
  /-- Build target. -/
  platform : Platform
  /-- Function FileNames::IsTempDirectoryNameOK. -/
  IsTempDirectoryNameOK : String → Bool
  /-- Function FileNames::DefaultTempDir. -/
  DefaultTempDir : String
  /-- Function FileNames::TempDir, the temporary directory in use. -/
  TempDir : String
  /-- Method wxFileName::SameAs, behind the operators == and != on path objects. -/
  SameAs : wxFileName → wxFileName → Bool
  /-- Function Internat::FormatSize. -/
  FormatSize : Int → TranslatableString
  /-- Method TranslatableString::Translation, the text in the user's language. -/
  Translation : TranslatableString → String
  /-- Function wxGetDiskSpace: the free byte count, none when the query fails. -/
  wxGetDiskSpace : String → Option Int
  /-- Preferences store gPrefs: the stored string under a key, none when unset. -/
  gPrefs : Operation × PathType → Option String

/-- Call of the panel to a collaborator. -/
inductive Event
  | AudacityMessageBox (message caption : TranslatableString)
  | DirExists (dir : wxFileName)
  | Mkdir (dir : wxFileName) (perm flags : Nat)
  | Rmdir (dir : wxFileName)
  | wxDirExists (path : String)
  | wxGetDiskSpace (path : String)
  | ShowModal (defaultPath : String)
deriving DecidableEq, Repr

/-- The event is a call that reads or changes the directory tree. -/
def Event.isFilesystem : Event → Bool
  | .DirExists _ => true
  | .Mkdir _ _ _ => true
  | .Rmdir _ => true
  | .wxDirExists _ => true
  | .wxGetDiskSpace _ => true
  | _ => false

/-- State the handlers run in: the host directory tree and the calls made so far. -/
structure World where
  fs : FileSystem
  trace : List Event
deriving DecidableEq, Repr

/-- Records a call. -/
def World.emit (w : World) (e : Event) : World := { w with trace := w.trace ++ [e] }

/-- Controls of the panel: the value of the Location text box and the label
and accessible name of the Free Space box; none while a control is NULL. -/
structure DirectoriesPrefs where
  mTempText : Option String
  mFreeSpace : Option (String × String)
deriving DecidableEq, Repr

/-! ## DirectoriesPrefs::Validate -/

/-- The restart notice. -/
def restartMessage : TranslatableString :=
  XO "Changes to temporary directory will not take effect until Audacity is restarted"

/-- Method DirectoriesPrefs::Validate. `ans` is the answer the user gives to
the "Create it?" box when it is shown. The result is none when mTempText is
NULL (the method dereferences it unguarded). -/
def Validate (h : Host) (self : DirectoriesPrefs) (ans : Int) (w : World) : Option (Bool × World) :=
  match self.mTempText with
  | none => none
  | some value =>
    let Temp := wxFileName.SetPath value
    let path := Temp.GetPath wxPATH_GET_VOLUME
    if !h.IsTempDirectoryNameOK path then
      some (false, w.emit (.AudacityMessageBox
        ((XO "Directory %s is not suitable (at risk of being cleaned out)").Format path)
        (XO "Error")))
    else
      -- the create-or-probe step: an early return false, or the path object to go on with
      let step : Except World (wxFileName × World) :=
        let w := w.emit (.DirExists Temp)
        if !Temp.DirExists w.fs then
          let w := w.emit (.AudacityMessageBox
            ((XO "Directory %s does not exist. Create it?").Format path)
            (XO "New Temporary Directory"))
          if ans != wxYES then .error w
          else
            let r := Temp.Mkdir w.fs 0o755 wxPATH_MKDIR_FULL
            let w : World := ⟨r.2, w.trace ++ [.Mkdir Temp 0o755 wxPATH_MKDIR_FULL]⟩
            if !r.1 then .error w else .ok (Temp, w)
        else
          -- wxLogNull logNo: log output is switched off during the probe, no other effect
          let Temp := Temp.AppendDir "canicreate"
          let path := Temp.GetPath wxPATH_GET_VOLUME
          let r := Temp.Mkdir w.fs 0o755 0
          let w : World := ⟨r.2, w.trace ++ [.Mkdir Temp 0o755 0]⟩
          if !r.1 then
            .error (w.emit (.AudacityMessageBox
              ((XO "Directory %s is not writable").Format path) (XO "Error")))
          else
            let w : World := ⟨(Temp.Rmdir w.fs).2, w.trace ++ [.Rmdir Temp]⟩
            .ok (Temp.RemoveLastDir, w)
      match step with
      | .error w => some (false, w)
      | .ok (Temp, w) =>
        let oldDir := wxFileName.SetPath h.TempDir
        if !h.SameAs Temp oldDir then
          some (true, w.emit (.AudacityMessageBox restartMessage (XO "Temp Directory Update")))
        else some (true, w)

/-! ## DirectoriesPrefs::OnTempText -/

/-- Method DirectoriesPrefs::OnTempText. The byte count `space` starts as the
default-constructed wxLongLong, zero, and wxGetDiskSpace writes it only when
the query succeeds; the handler does not look at the query's return value. -/
def OnTempText (h : Host) (self : DirectoriesPrefs) (w : World) : DirectoriesPrefs × World :=
  let Temp : String :=
    match self.mTempText with
    | some value => value
    | none => ""
  let w := w.emit (.wxDirExists Temp)
  let r : TranslatableString × World :=
    if wxDirExists w.fs Temp then
      let space : Int := 0
      let w := w.emit (.wxGetDiskSpace Temp)
      let space : Int :=
        match h.wxGetDiskSpace Temp with
        | some free => free
        | none => space
      (h.FormatSize space, w)
    else
      (XO "unavailable - above location doesn't exist", w)
  let label := r.1
  match self.mFreeSpace with
  | some _ => ({ self with mFreeSpace := some (h.Translation label, h.Translation label) }, r.2)
  | none => (self, r.2)

/-! ## DirectoriesPrefs::OnTempBrowse -/

/-- Name of the session directory appended to a chosen location. -/
def newDirName : Platform → String
  | .WXMAC => "SessionData"
  | .WXMSW => "SessionData"
  | .other => ".audacity_temp"

/-- Method wxTextCtrl::SetValue on mTempText: stores the value and raises
EVT_TEXT, which the event table routes to OnTempText. -/
def SetValue (h : Host) (self : DirectoriesPrefs) (value : String) (w : World) :
    DirectoriesPrefs × World :=
  OnTempText h { self with mTempText := some value } w

/-- Method DirectoriesPrefs::OnTempBrowse. `retval` and `dlogPath` are what the
directory chooser returns from ShowModal and GetPath. The path objects are
built and printed in the native format of the build. The result is none when
mTempText is NULL on the path that dereferences it. -/
def OnTempBrowse (h : Host) (self : DirectoriesPrefs) (retval : Int) (dlogPath : String)
    (w : World) : Option (DirectoriesPrefs × World) :=
  let oldTemp : String :=
    (h.gPrefs (PreferenceKey Operation.Open PathType._None)).getD h.DefaultTempDir
  let oldTemp : String := if !h.IsTempDirectoryNameOK oldTemp then h.DefaultTempDir else oldTemp
  let w := w.emit (.ShowModal oldTemp)
  if retval != wxID_CANCEL && !dlogPath.data.isEmpty then
    let tmpDirPath := wxFileName.AssignDir dlogPath (wxPATH_NATIVE h.platform)
    let dirsInPath := tmpDirPath.GetDirs
    match self.mTempText with
    | none => none
    | some value =>
      let tmpDirPath :=
        if !h.SameAs tmpDirPath (wxFileName.mk2 h.DefaultTempDir "" (wxPATH_NATIVE h.platform)) &&
            !h.SameAs tmpDirPath (wxFileName.mk2 value "" (wxPATH_NATIVE h.platform)) &&
            (dirsInPath.length == 0 || dirsInPath.getLast? != some (newDirName h.platform))
        then tmpDirPath.AppendDir (newDirName h.platform)
        else tmpDirPath
      let r := SetValue h self
        (tmpDirPath.GetPathIn (wxPATH_GET_VOLUME ||| wxPATH_GET_SEPARATOR)
          (wxPATH_NATIVE h.platform)) w
      some (OnTempText h r.1 r.2)
  else some (self, w)

/-! ## Vocabulary of the statements -/

/-- Events a run added to the trace of the world it started in. -/
def World.since (w0 w1 : World) : List Event := w1.trace.drop w0.trace.length

/-- The error box "not suitable (at risk of being cleaned out)". -/
def notSuitableBox (path : String) : Event :=
  .AudacityMessageBox
    ((XO "Directory %s is not suitable (at risk of being cleaned out)").Format path) (XO "Error")

/-- The confirmation box "does not exist. Create it?". -/
def createPromptBox (path : String) : Event :=
  .AudacityMessageBox
    ((XO "Directory %s does not exist. Create it?").Format path) (XO "New Temporary Directory")

/-- The error box "is not writable". -/
def notWritableBox (path : String) : Event :=
  .AudacityMessageBox ((XO "Directory %s is not writable").Format path) (XO "Error")

/-- The information box announcing that a restart is needed. -/
def restartBox : Event :=
  .AudacityMessageBox restartMessage (XO "Temp Directory Update")

/-- The label shown when the location does not exist. -/
def unavailableLabel : TranslatableString := XO "unavailable - above location doesn't exist"

/-- A directory segment as SetPath produces them: not empty, no separator inside. -/
def IsSegment (d : String) : Prop := d.data ≠ [] ∧ '/' ∉ d.data

/-- A host for worked examples: a Linux build whose temporary directory in
use is the default one, with structural comparison of path objects. -/
def sampleHost : Host where
  platform := .other
  IsTempDirectoryNameOK := fun name => name != "" && name != "/private/tmp"
  DefaultTempDir := "/var/tmp/audacity-u"
  TempDir := "/var/tmp/audacity-u"
  SameAs := fun a b => a == b
  FormatSize := fun size => (XO "%s bytes").Format (toString size)
  Translation := fun t => String.intercalate " " (t.msgid :: t.args)
  wxGetDiskSpace := fun _ => none
  gPrefs := fun key =>
    if key = (Operation.Temp, PathType._None) then some "/data/audacity_temp"
    else if key = (Operation.Open, PathType._None) then some "/home/u/Music"
    else none

/-- The sample host as a macOS build. -/
def sampleHostMAC : Host :=
  { sampleHost with
    platform := .WXMAC
    DefaultTempDir := "/Users/me/Library/Application Support/audacity/SessionData"
    TempDir := "/Users/me/Library/Application Support/audacity/SessionData" }

/-- The sample host as a Windows build. -/
def sampleHostMSW : Host :=
  { sampleHost with
    platform := .WXMSW
    DefaultTempDir := "C:\\Users\\me\\AppData\\Local\\Audacity\\SessionData"
    TempDir := "C:\\Users\\me\\AppData\\Local\\Audacity\\SessionData" }

/-- A directory tree for worked examples: /home/u is writable and holds a
directory named canicreate, /srv is writable and empty, /ro is read-only. -/
def sampleTree : FileSystem :=
  [(⟨"", false, []⟩, true), (⟨"", false, ["home"]⟩, true), (⟨"", false, ["home", "u"]⟩, true),
   (⟨"", false, ["home", "u", "canicreate"]⟩, true), (⟨"", false, ["srv"]⟩, true),
   (⟨"", false, ["ro"]⟩, false)]

/-- A panel for worked examples with the given text in the Location box. -/
def samplePanel (value : String) : DirectoriesPrefs := ⟨some value, some ("", "")⟩

/-! ## Lemmas on the directory tree -/

namespace FileSystem

theorem entry_cons (k d : wxFileName) (b : Bool) (fs : FileSystem) :
    entry ((k, b) :: fs) d = if k = d then some b else entry fs d := rfl

theorem wxMkdir_eq_some {fs fs1 : FileSystem} {d : wxFileName} {perm : Nat}
    (hm : fs.wxMkdir d perm = some fs1) :
    fs1 = (d, perm.testBit 7) :: fs ∧ d.m_dirs ≠ [] ∧ fs.entry d = none ∧
      fs.entry d.RemoveLastDir = some true := by
  unfold wxMkdir at hm
  by_cases h1 : d.m_dirs.isEmpty = true
  · simp [h1] at hm
  · by_cases h2 : (fs.entry d).isSome = true
    · simp [h1, h2] at hm
    · simp only [h1, h2, Bool.false_eq_true, if_false] at hm
      have h1x : d.m_dirs ≠ [] := by simpa using h1
      have h2x : fs.entry d = none := by simpa using h2
      cases hp : fs.entry d.RemoveLastDir with
      | none => simp [hp] at hm
      | some b =>
        cases b with
        | false => simp [hp] at hm
        | true =>
          simp [hp] at hm
          exact ⟨hm.symm, h1x, h2x, rfl⟩

theorem isSome_entry_wxMkdir {fs fs1 : FileSystem} {d : wxFileName} {perm : Nat}
    (hm : fs.wxMkdir d perm = some fs1) (k : wxFileName) (hk : (fs.entry k).isSome = true) :
    (fs1.entry k).isSome = true := by
  obtain ⟨rfl, -, -, -⟩ := wxMkdir_eq_some hm
  rw [entry_cons]
  split <;> simp [hk]

theorem isSome_entry_mkdirFull (vol : String) (rel : Bool) (perm : Nat) (k : wxFileName) :
    ∀ (rest : List String) (fs : FileSystem) (done : List String),
      (fs.entry k).isSome = true →
        ((mkdirFull vol rel perm fs done rest).2.entry k).isSome = true := by
  intro rest
  induction rest with
  | nil => intro fs done hk; simpa [mkdirFull] using hk
  | cons d rest ih =>
    intro fs done hk
    unfold mkdirFull
    simp only
    split
    · exact ih fs _ hk
    · split
      · exact hk
      · next fs1 hm => exact ih fs1 _ (isSome_entry_wxMkdir hm k hk)

theorem mkdirFull_entry (vol : String) (rel : Bool) (perm : Nat) :
    ∀ (rest : List String) (fs : FileSystem) (done : List String), rest ≠ [] →
      (mkdirFull vol rel perm fs done rest).1 = true →
      ((mkdirFull vol rel perm fs done rest).2.entry ⟨vol, rel, done ++ rest⟩).isSome = true := by
  intro rest
  induction rest with
  | nil => intro fs done hne; exact absurd rfl hne
  | cons d rest ih =>
    intro fs done _ hok
    unfold mkdirFull at hok ⊢
    simp only at hok ⊢
    split at hok
    · next hex =>
      rw [if_pos hex]
      by_cases hr : rest = []
      · subst hr
        simp only [mkdirFull]
        simp only [dirExists, Bool.and_eq_true] at hex
        exact hex.2
      · have := ih fs (done ++ [d]) hr hok
        simpa using this
    · next hex =>
      rw [if_neg hex]
      split at hok
      · simp at hok
      · next fs1 hm =>
        by_cases hr : rest = []
        · subst hr
          simp only [mkdirFull]
          obtain ⟨rfl, -, -, -⟩ := wxMkdir_eq_some hm
          simp [entry_cons]
        · have := ih fs1 (done ++ [d]) hr hok
          simpa using this

theorem mkdirFull_dirExists (vol : String) (rel : Bool) (perm : Nat) (fs : FileSystem)
    (dirs : List String)
    (hne : dirs ≠ []) (hok : (mkdirFull vol rel perm fs [] dirs).1 = true) :
    (mkdirFull vol rel perm fs [] dirs).2.dirExists ⟨vol, rel, dirs⟩ = true := by
  have := mkdirFull_entry vol rel perm dirs fs [] hne hok
  simp only [List.nil_append] at this
  simp [dirExists, this, hne]

theorem filter_ne_of_entry_none (d : wxFileName) :
    ∀ fs : FileSystem, fs.entry d = none → fs.filter (fun e => decide (e.1 ≠ d)) = fs := by
  intro fs
  induction fs with
  | nil => intro _; rfl
  | cons e fs ih =>
    obtain ⟨k, b⟩ := e
    intro hn
    rw [entry_cons] at hn
    by_cases hk : k = d
    · simp [hk] at hn
    · simp only [hk, if_false] at hn
      rw [List.filter_cons, if_pos (by simpa using hk), ih hn]

theorem wxRmdir_wxMkdir {fs fs1 : FileSystem} {d : wxFileName} {perm : Nat}
    (hm : fs.wxMkdir d perm = some fs1) (hch : fs.hasChild d = false) :
    fs1.wxRmdir d = some fs := by
  obtain ⟨rfl, hne, hnone, hpar⟩ := wxMkdir_eq_some hm
  have hpd : d.RemoveLastDir ≠ d := by
    intro hEq
    have : d.m_dirs.dropLast.length = d.m_dirs.length := by
      have := congrArg wxFileName.m_dirs hEq
      simp only [wxFileName.RemoveLastDir] at this
      rw [this]
    rw [List.length_dropLast] at this
    have hpos : 0 < d.m_dirs.length := List.length_pos.mpr hne
    omega
  have hself : d.m_dirs.dropLast ≠ d.m_dirs := by
    intro hEq
    apply hpd
    cases d
    simp only [wxFileName.RemoveLastDir] at hEq ⊢
    simp [hEq]
  unfold wxRmdir
  have e1 : d.m_dirs.isEmpty = false := by simpa using hne
  have e2 : (entry ((d, perm.testBit 7) :: fs) d).isNone = false := by simp [entry_cons]
  have e3 : hasChild ((d, perm.testBit 7) :: fs) d = false := by
    unfold hasChild at hch ⊢
    rw [List.any_cons, hch]
    simp [hself]
  have e4 : entry ((d, perm.testBit 7) :: fs) d.RemoveLastDir = some true := by
    rw [entry_cons, if_neg (Ne.symm hpd), hpar]
  simp only [e1, e2, e3, e4, Bool.false_eq_true, if_false]
  rw [List.filter_cons, if_neg (by simp), filter_ne_of_entry_none d fs hnone]

end FileSystem



/-! ## Lemmas on parsing and printing paths -/

theorem tokenize_append_sepfree (xs : List Char) (hx : '/' ∉ xs) :
    ∀ (rest cur : List Char), tokenize (xs ++ rest) cur = tokenize rest (xs.reverse ++ cur) := by
  induction xs with
  | nil => intro rest cur; rfl
  | cons c xs ih =>
    intro rest cur
    have hc : c ≠ '/' := fun hEq => hx (by simp [hEq])
    have hxs : '/' ∉ xs := fun hm => hx (List.mem_cons_of_mem _ hm)
    simp only [List.cons_append, tokenize, if_neg hc, List.reverse_cons, List.append_assoc,
      List.singleton_append]
    exact ih hxs rest (c :: cur)

theorem tokenize_segment_sep (d : String) (hd : IsSegment d) (rest : List Char) :
    tokenize (d.data ++ '/' :: rest) [] = d :: tokenize rest [] := by
  rw [tokenize_append_sepfree d.data hd.2]
  have hne : d.data.reverse ≠ [] := by simpa using hd.1
  simp only [List.append_nil, tokenize, if_true]
  cases hrev : d.data.reverse with
  | nil => exact absurd hrev hne
  | cons a as =>
    have : (a :: as).reverse = d.data := by rw [← hrev, List.reverse_reverse]
    simp [this]

theorem tokenize_segment_end (d : String) (hd : IsSegment d) :
    tokenize d.data [] = [d] := by
  have := tokenize_append_sepfree d.data hd.2 [] []
  simp only [List.append_nil] at this
  rw [this]
  have hne : d.data.reverse ≠ [] := by simpa using hd.1
  cases hrev : d.data.reverse with
  | nil => exact absurd hrev hne
  | cons a as =>
    have : (a :: as).reverse = d.data := by rw [← hrev, List.reverse_reverse]
    simp [tokenize, this]

theorem tokenize_joinDirs (b : Bool) :
    ∀ ds : List String, (∀ d ∈ ds, IsSegment d) →
      tokenize (wxFileName.joinDirs b ds).data [] = ds := by
  intro ds
  induction ds with
  | nil => intro _; rfl
  | cons d ds ih =>
    intro hall
    have hd : IsSegment d := hall d (by simp)
    cases ds with
    | nil =>
      cases b
      · simpa [wxFileName.joinDirs] using tokenize_segment_end d hd
      · have := tokenize_segment_sep d hd []
        simpa [wxFileName.joinDirs, tokenize] using this
    | cons e ds =>
      have hrest := ih (fun x hx => hall x (List.mem_cons_of_mem _ hx))
      have := tokenize_segment_sep d hd (wxFileName.joinDirs b (e :: ds)).data
      simp only [wxFileName.joinDirs, String.data_append, List.append_assoc]
      simp only [List.singleton_append]
      rw [this, hrest]

theorem tokenize_isSegment :
    ∀ (s cur : List Char), '/' ∉ cur → ∀ d ∈ tokenize s cur, IsSegment d := by
  intro s
  induction s with
  | nil =>
    intro cur hcur d hd
    cases cur with
    | nil => simp [tokenize] at hd
    | cons a as =>
      simp only [tokenize, List.isEmpty_cons, Bool.false_eq_true, if_false,
        List.mem_singleton] at hd
      subst hd
      refine ⟨by simp, ?_⟩
      intro hm
      have hm2 : '/' ∈ (a :: as).reverse := hm
      exact hcur (List.mem_reverse.mp hm2)
  | cons c s ih =>
    intro cur hcur d hd
    by_cases hc : c = '/'
    · subst hc
      cases cur with
      | nil =>
        simp only [tokenize, if_true, List.isEmpty_nil] at hd
        exact ih [] (by simp) d hd
      | cons a as =>
        simp only [tokenize, if_true, List.isEmpty_cons, Bool.false_eq_true, if_false,
          List.mem_cons] at hd
        rcases hd with rfl | hd
        · refine ⟨by simp, ?_⟩
          intro hm
          have hm2 : '/' ∈ (a :: as).reverse := hm
          exact hcur (List.mem_reverse.mp hm2)
        · exact ih [] (by simp) d hd
    · simp only [tokenize, if_neg hc] at hd
      refine ih (c :: cur) ?_ d hd
      intro hm
      rcases List.mem_cons.mp hm with hEq | hm
      · exact hc hEq.symm
      · exact hcur hm

theorem SetPath_isSegment (s : String) : ∀ d ∈ (wxFileName.SetPath s).m_dirs, IsSegment d := by
  unfold wxFileName.SetPath
  cases hs : s.data with
  | nil => simp
  | cons c rest => exact tokenize_isSegment (c :: rest) [] (by simp)

theorem joinDirs_data_cons (b : Bool) (d : String) (ds : List String) :
    ∃ t, (wxFileName.joinDirs b (d :: ds)).data = d.data ++ t := by
  cases ds with
  | nil =>
    cases b
    · exact ⟨[], by simp [wxFileName.joinDirs]⟩
    · exact ⟨['/'], by simp [wxFileName.joinDirs, String.data_append]⟩
  | cons e ds =>
    exact ⟨'/' :: (wxFileName.joinDirs b (e :: ds)).data, by
      simp [wxFileName.joinDirs, String.data_append]⟩

/-- Printing a path object whose segments are well formed and parsing the text
again gives the object back, with or without the trailing separator. -/
theorem SetPath_GetPath (f : wxFileName) (hvol : f.m_volume = "")
    (hseg : ∀ d ∈ f.m_dirs, IsSegment d) (flags : Nat) :
    wxFileName.SetPath (f.GetPath flags) = f := by
  obtain ⟨vol, rel, ds⟩ := f
  simp only at hseg hvol
  subst hvol
  have htok := tokenize_joinDirs (flags.testBit 1) ds hseg
  cases rel with
  | false =>
    have hdata : (wxFileName.GetPath ⟨"", false, ds⟩ flags).data
        = '/' :: (wxFileName.joinDirs (flags.testBit 1) ds).data := by
      simp [wxFileName.GetPath, String.data_append]
    unfold wxFileName.SetPath
    rw [hdata]
    simp only [tokenize, if_true, List.isEmpty_nil, htok]
    simp
  | true =>
    have hdata : (wxFileName.GetPath ⟨"", true, ds⟩ flags).data
        = (wxFileName.joinDirs (flags.testBit 1) ds).data := by
      simp [wxFileName.GetPath, String.data_append]
    unfold wxFileName.SetPath
    rw [hdata]
    cases ds with
    | nil => simp [wxFileName.joinDirs]
    | cons d ds =>
      have hd : IsSegment d := hseg d (by simp)
      obtain ⟨t, ht⟩ := joinDirs_data_cons (flags.testBit 1) d ds
      cases hdd : d.data with
      | nil => exact absurd hdd hd.1
      | cons c cs =>
        have hc : c ≠ '/' := by
          intro hEq
          apply hd.2
          rw [hdd, hEq]
          simp
        have hj : (wxFileName.joinDirs (flags.testBit 1) (d :: ds)).data = c :: (cs ++ t) := by
          rw [ht, hdd]; rfl
        rw [hj]
        simp only
        rw [← hj, htok]
        simp [hc]


/-! ## Validate -/


theorem World.since_append (w : World) (fs : FileSystem) (es : List Event) :
    w.since ⟨fs, w.trace ++ es⟩ = es := by
  simp [World.since]

/-- Supporting lemma (probe cycle): in a writable directory that has no entry
named canicreate, the probe is created and removed again, Validate returns
true and the directory tree is the one it started with. -/
theorem Validate_probe_cycle (h : Host) (self : DirectoriesPrefs) (ans : Int) (w : World)
    (value : String) (hv : self.mTempText = some value)
    (hok : h.IsTempDirectoryNameOK ((wxFileName.SetPath value).GetPath wxPATH_GET_VOLUME) = true)
    (hex : (wxFileName.SetPath value).DirExists w.fs = true)
    (hwr : w.fs.entry (wxFileName.SetPath value) = some true)
    (hfresh : w.fs.entry ((wxFileName.SetPath value).AppendDir "canicreate") = none)
    (hch : w.fs.hasChild ((wxFileName.SetPath value).AppendDir "canicreate") = false) :
    ∃ w1, Validate h self ans w = some (true, w1) ∧ w1.fs = w.fs ∧
      w1.trace = w.trace ++
        ([Event.DirExists (wxFileName.SetPath value),
          Event.Mkdir ((wxFileName.SetPath value).AppendDir "canicreate") 0o755 0,
          Event.Rmdir ((wxFileName.SetPath value).AppendDir "canicreate")] ++
          if h.SameAs (wxFileName.SetPath value) (wxFileName.SetPath h.TempDir) = false
          then [restartBox] else []) := by
  have hrl : ((wxFileName.SetPath value).AppendDir "canicreate").RemoveLastDir
      = wxFileName.SetPath value := by
    simp [wxFileName.AppendDir, wxFileName.RemoveLastDir]
  have hm : w.fs.wxMkdir ((wxFileName.SetPath value).AppendDir "canicreate") 0o755
      = some (((wxFileName.SetPath value).AppendDir "canicreate", true) :: w.fs) := by
    unfold FileSystem.wxMkdir
    rw [hrl, hwr, hfresh]
    simp [wxFileName.AppendDir]
    decide
  have hr := FileSystem.wxRmdir_wxMkdir hm hch
  refine ⟨⟨w.fs, w.trace ++
        ([Event.DirExists (wxFileName.SetPath value),
          Event.Mkdir ((wxFileName.SetPath value).AppendDir "canicreate") 0o755 0,
          Event.Rmdir ((wxFileName.SetPath value).AppendDir "canicreate")] ++
          if h.SameAs (wxFileName.SetPath value) (wxFileName.SetPath h.TempDir) = false
          then [restartBox] else [])⟩, ?_, rfl, rfl⟩
  cases hs : h.SameAs (wxFileName.SetPath value) (wxFileName.SetPath h.TempDir) <;>
    simp [Validate, hv, hok, hex, hm, hr, World.emit, wxFileName.Mkdir, wxFileName.Rmdir, hrl, hs,
      restartBox]


/-- Claim C1. When the name check IsTempDirectoryNameOK fails on the path of
the Location text, Validate returns false, the directory tree is untouched,
and the only call it makes is the "not suitable (at risk of being cleaned
out)" error box: no call that reads or changes the directory tree (existence
query, Mkdir, Rmdir) and no "Create it?" prompt. -/
theorem validate_unsuitable_name_touches_nothing (h : Host) (self : DirectoriesPrefs)
    (ans : Int) (w : World) (value : String) (hv : self.mTempText = some value)
    (hbad : h.IsTempDirectoryNameOK
      ((wxFileName.SetPath value).GetPath wxPATH_GET_VOLUME) = false) :
    ∃ w1, Validate h self ans w = some (false, w1) ∧ w1.fs = w.fs ∧
      w1.trace = w.trace ++
        [notSuitableBox ((wxFileName.SetPath value).GetPath wxPATH_GET_VOLUME)] ∧
      (∀ e ∈ w.since w1, e.isFilesystem = false) ∧
      createPromptBox ((wxFileName.SetPath value).GetPath wxPATH_GET_VOLUME) ∉ w.since w1 := by
  refine ⟨⟨w.fs, w.trace ++
    [notSuitableBox ((wxFileName.SetPath value).GetPath wxPATH_GET_VOLUME)]⟩, ?_, rfl, rfl, ?_, ?_⟩
  · simp [Validate, hv, hbad, World.emit, notSuitableBox]
  · rw [World.since_append]
    intro e he
    simp only [List.mem_singleton] at he
    subst he
    rfl
  · rw [World.since_append]
    simp [notSuitableBox, createPromptBox, XO, TranslatableString.Format]

/-- Worked example for C1: the platform-cleaned location /private/tmp. -/
theorem validate_unsuitable_name_touches_nothing_witness :
    sampleHost.IsTempDirectoryNameOK
        ((wxFileName.SetPath "/private/tmp").GetPath wxPATH_GET_VOLUME) = false ∧
    ∃ w1, Validate sampleHost (samplePanel "/private/tmp") wxYES ⟨sampleTree, []⟩
        = some (false, w1) ∧ w1.fs = sampleTree ∧
      w1.trace = [] ++
        [notSuitableBox ((wxFileName.SetPath "/private/tmp").GetPath wxPATH_GET_VOLUME)] ∧
      (∀ e ∈ World.since ⟨sampleTree, []⟩ w1, e.isFilesystem = false) ∧
      createPromptBox ((wxFileName.SetPath "/private/tmp").GetPath wxPATH_GET_VOLUME)
        ∉ World.since ⟨sampleTree, []⟩ w1 :=
  ⟨by decide, validate_unsuitable_name_touches_nothing sampleHost (samplePanel "/private/tmp")
    wxYES ⟨sampleTree, []⟩ "/private/tmp" rfl (by decide)⟩

/-- Claim C2, evaluated where the code departs from it. The directory /home/u
exists, is writable and has a suitable name, but holds an entry named
canicreate: the probe Mkdir fails, Validate shows "is not writable" and
returns false. -/
theorem validate_rejects_writable_directory_holding_probe :
    sampleHost.IsTempDirectoryNameOK
        ((wxFileName.SetPath "/home/u").GetPath wxPATH_GET_VOLUME) = true ∧
      (wxFileName.SetPath "/home/u").DirExists sampleTree = true ∧
      sampleTree.entry (wxFileName.SetPath "/home/u") = some true ∧
      Validate sampleHost (samplePanel "/home/u") wxYES ⟨sampleTree, []⟩
        = some (false, ⟨sampleTree,
            [Event.DirExists ⟨"", false, ["home", "u"]⟩,
             Event.Mkdir ⟨"", false, ["home", "u", "canicreate"]⟩ 0o755 0,
             notWritableBox "/home/u/canicreate"]⟩) := by
  decide

/-- Claim C3. When the Location path exists as a directory and creating the
probe subdirectory canicreate in it fails, Validate returns false after the
"is not writable" box; it calls DirExists and Mkdir once each, no Rmdir and
no restart notice, and the directory tree is the one it started with. -/
theorem validate_probe_failure_is_rejected (h : Host) (self : DirectoriesPrefs) (ans : Int)
    (w : World) (value : String) (hv : self.mTempText = some value)
    (hok : h.IsTempDirectoryNameOK
      ((wxFileName.SetPath value).GetPath wxPATH_GET_VOLUME) = true)
    (hex : (wxFileName.SetPath value).DirExists w.fs = true)
    (hfail : w.fs.wxMkdir ((wxFileName.SetPath value).AppendDir "canicreate") 0o755 = none) :
    ∃ w1, Validate h self ans w = some (false, w1) ∧ w1.fs = w.fs ∧
      w1.trace = w.trace ++
        [Event.DirExists (wxFileName.SetPath value),
         Event.Mkdir ((wxFileName.SetPath value).AppendDir "canicreate") 0o755 0,
         notWritableBox
          (((wxFileName.SetPath value).AppendDir "canicreate").GetPath wxPATH_GET_VOLUME)] ∧
      (∀ d, Event.Rmdir d ∉ w.since w1) ∧ restartBox ∉ w.since w1 := by
  refine ⟨⟨w.fs, w.trace ++
        [Event.DirExists (wxFileName.SetPath value),
         Event.Mkdir ((wxFileName.SetPath value).AppendDir "canicreate") 0o755 0,
         notWritableBox
          (((wxFileName.SetPath value).AppendDir "canicreate").GetPath wxPATH_GET_VOLUME)]⟩,
      ?_, rfl, rfl, ?_, ?_⟩
  · simp [Validate, hv, hok, hex, hfail, World.emit, wxFileName.Mkdir, notWritableBox]
  · intro d
    rw [World.since_append]
    simp [notWritableBox]
  · rw [World.since_append]
    simp [notWritableBox, restartBox, restartMessage, XO, TranslatableString.Format]

/-- Worked example for C3: the read-only directory /ro. -/
theorem validate_probe_failure_is_rejected_witness :
    (wxFileName.SetPath "/ro").DirExists sampleTree = true ∧
    sampleTree.wxMkdir ((wxFileName.SetPath "/ro").AppendDir "canicreate") 0o755 = none ∧
    ∃ w1, Validate sampleHost (samplePanel "/ro") wxYES ⟨sampleTree, []⟩ = some (false, w1) ∧
      w1.fs = sampleTree ∧
      w1.trace = [] ++
        [Event.DirExists (wxFileName.SetPath "/ro"),
         Event.Mkdir ((wxFileName.SetPath "/ro").AppendDir "canicreate") 0o755 0,
         notWritableBox
          (((wxFileName.SetPath "/ro").AppendDir "canicreate").GetPath wxPATH_GET_VOLUME)] ∧
      (∀ d, Event.Rmdir d ∉ World.since ⟨sampleTree, []⟩ w1) ∧
      restartBox ∉ World.since ⟨sampleTree, []⟩ w1 :=
  ⟨by decide, by decide,
    validate_probe_failure_is_rejected sampleHost (samplePanel "/ro") wxYES ⟨sampleTree, []⟩
      "/ro" rfl (by decide) (by decide) (by decide)⟩

/-- Claim C4. When the Location path has a suitable name and does not exist as
a directory, and the answer to "Create it?" is anything other than wxYES,
Validate returns false having only queried existence and shown the prompt: no
Mkdir or other change, the directory tree is the one it started with, and the
path still does not exist. -/
theorem validate_declined_creation_changes_nothing (h : Host) (self : DirectoriesPrefs)
    (ans : Int) (w : World) (value : String) (hv : self.mTempText = some value)
    (hok : h.IsTempDirectoryNameOK
      ((wxFileName.SetPath value).GetPath wxPATH_GET_VOLUME) = true)
    (hne : (wxFileName.SetPath value).DirExists w.fs = false)
    (hans : ans ≠ wxYES) :
    ∃ w1, Validate h self ans w = some (false, w1) ∧ w1.fs = w.fs ∧
      w1.trace = w.trace ++ [Event.DirExists (wxFileName.SetPath value),
        createPromptBox ((wxFileName.SetPath value).GetPath wxPATH_GET_VOLUME)] ∧
      (wxFileName.SetPath value).DirExists w1.fs = false := by
  refine ⟨⟨w.fs, w.trace ++ [Event.DirExists (wxFileName.SetPath value),
        createPromptBox ((wxFileName.SetPath value).GetPath wxPATH_GET_VOLUME)]⟩,
        ?_, rfl, rfl, hne⟩
  simp [Validate, hv, hok, hne, hans, World.emit, createPromptBox]

/-- Worked example for C4: /srv/new/dir does not exist and the answer is wxNO (8). -/
theorem validate_declined_creation_changes_nothing_witness :
    (wxFileName.SetPath "/srv/new/dir").DirExists sampleTree = false ∧ (8 : Int) ≠ wxYES ∧
    ∃ w1, Validate sampleHost (samplePanel "/srv/new/dir") 8 ⟨sampleTree, []⟩ = some (false, w1) ∧
      w1.fs = sampleTree ∧
      w1.trace = [] ++ [Event.DirExists (wxFileName.SetPath "/srv/new/dir"),
        createPromptBox ((wxFileName.SetPath "/srv/new/dir").GetPath wxPATH_GET_VOLUME)] ∧
      (wxFileName.SetPath "/srv/new/dir").DirExists w1.fs = false :=
  ⟨by decide, by decide,
    validate_declined_creation_changes_nothing sampleHost (samplePanel "/srv/new/dir") 8
      ⟨sampleTree, []⟩ "/srv/new/dir" rfl (by decide) (by decide) (by decide)⟩

/-- Claim C5. When the Location path has a suitable name and does not exist as
a directory, and the answer to "Create it?" is wxYES, Validate makes exactly
one Mkdir call, on that path with mode 0755 and wxPATH_MKDIR_FULL (creation of
the missing parent segments), and no probe; it returns the success flag of
that call, and when the call succeeded on a path with at least one segment the
path exists as a directory afterwards. -/
theorem validate_accepted_creation (h : Host) (self : DirectoriesPrefs)
    (ans : Int) (w : World) (value : String) (hv : self.mTempText = some value)
    (hok : h.IsTempDirectoryNameOK
      ((wxFileName.SetPath value).GetPath wxPATH_GET_VOLUME) = true)
    (hne : (wxFileName.SetPath value).DirExists w.fs = false)
    (hans : ans = wxYES) :
    ∃ w1, Validate h self ans w
        = some (((wxFileName.SetPath value).Mkdir w.fs 0o755 wxPATH_MKDIR_FULL).1, w1) ∧
      w1.fs = ((wxFileName.SetPath value).Mkdir w.fs 0o755 wxPATH_MKDIR_FULL).2 ∧
      (wxFileName.SetPath value).Mkdir w.fs 0o755 wxPATH_MKDIR_FULL
        = FileSystem.mkdirFull (wxFileName.SetPath value).m_volume
            (wxFileName.SetPath value).m_relative 0o755 w.fs []
            (wxFileName.SetPath value).m_dirs ∧
      (w.since w1).filter
          (fun e => match e with
            | .Mkdir _ _ _ => true
            | _ => false)
        = [Event.Mkdir (wxFileName.SetPath value) 0o755 wxPATH_MKDIR_FULL] ∧
      (((wxFileName.SetPath value).Mkdir w.fs 0o755 wxPATH_MKDIR_FULL).1 = true →
        (wxFileName.SetPath value).m_dirs ≠ [] →
        (wxFileName.SetPath value).DirExists w1.fs = true) := by
  have hfull : (wxFileName.SetPath value).Mkdir w.fs 0o755 wxPATH_MKDIR_FULL
        = FileSystem.mkdirFull (wxFileName.SetPath value).m_volume
            (wxFileName.SetPath value).m_relative 0o755 w.fs []
            (wxFileName.SetPath value).m_dirs := by
    unfold wxFileName.Mkdir
    rw [if_pos (by decide)]
  refine ⟨⟨((wxFileName.SetPath value).Mkdir w.fs 0o755 wxPATH_MKDIR_FULL).2, w.trace ++
      ([Event.DirExists (wxFileName.SetPath value),
        createPromptBox ((wxFileName.SetPath value).GetPath wxPATH_GET_VOLUME),
        Event.Mkdir (wxFileName.SetPath value) 0o755 wxPATH_MKDIR_FULL] ++
        if ((wxFileName.SetPath value).Mkdir w.fs 0o755 wxPATH_MKDIR_FULL).1 = true ∧
            h.SameAs (wxFileName.SetPath value) (wxFileName.SetPath h.TempDir) = false
        then [restartBox] else [])⟩, ?_, rfl, hfull, ?_, ?_⟩
  · subst hans
    cases hm : ((wxFileName.SetPath value).Mkdir w.fs 0o755 wxPATH_MKDIR_FULL).1 <;>
      cases hs : h.SameAs (wxFileName.SetPath value) (wxFileName.SetPath h.TempDir) <;>
      simp [Validate, hv, hok, hne, World.emit, createPromptBox, restartBox, hm, hs]
  · rw [World.since_append]
    split <;> simp [createPromptBox, restartBox, List.filter_cons]
  · intro hsucc hdirs
    rw [hfull] at hsucc
    simp only [hfull]
    exact FileSystem.mkdirFull_dirExists _ _ _ _ _ hdirs hsucc

/-- Worked example for C5: /srv/new/dir is created together with its missing
parent /srv/new. -/
theorem validate_accepted_creation_witness :
    (wxFileName.SetPath "/srv/new").DirExists sampleTree = false ∧
    (wxFileName.SetPath "/srv/new/dir").DirExists sampleTree = false ∧
    ((wxFileName.SetPath "/srv/new/dir").Mkdir sampleTree 0o755 wxPATH_MKDIR_FULL).1 = true ∧
    ∃ w1, Validate sampleHost (samplePanel "/srv/new/dir") wxYES ⟨sampleTree, []⟩
        = some (((wxFileName.SetPath "/srv/new/dir").Mkdir sampleTree 0o755
            wxPATH_MKDIR_FULL).1, w1) ∧
      w1.fs = ((wxFileName.SetPath "/srv/new/dir").Mkdir sampleTree 0o755 wxPATH_MKDIR_FULL).2 ∧
      (wxFileName.SetPath "/srv/new/dir").Mkdir sampleTree 0o755 wxPATH_MKDIR_FULL
        = FileSystem.mkdirFull (wxFileName.SetPath "/srv/new/dir").m_volume
            (wxFileName.SetPath "/srv/new/dir").m_relative 0o755 sampleTree []
            (wxFileName.SetPath "/srv/new/dir").m_dirs ∧
      (World.since ⟨sampleTree, []⟩ w1).filter
          (fun e => match e with
            | .Mkdir _ _ _ => true
            | _ => false)
        = [Event.Mkdir (wxFileName.SetPath "/srv/new/dir") 0o755 wxPATH_MKDIR_FULL] ∧
      (((wxFileName.SetPath "/srv/new/dir").Mkdir sampleTree 0o755 wxPATH_MKDIR_FULL).1 = true →
        (wxFileName.SetPath "/srv/new/dir").m_dirs ≠ [] →
        (wxFileName.SetPath "/srv/new/dir").DirExists w1.fs = true) :=
  ⟨by decide, by decide, by decide,
    validate_accepted_creation sampleHost (samplePanel "/srv/new/dir") wxYES
      ⟨sampleTree, []⟩ "/srv/new/dir" rfl (by decide) (by decide) rfl⟩


/-- Claim C8. When the name check passes and the create-or-probe step passes
(the missing directory was created after a wxYES answer, or the probe
directory could be created in the existing one), Validate returns true in
either case of the comparison, and the restart notice is among the calls it
made exactly when the path of the Location text, without the probe segment,
is not SameAs the path of FileNames::TempDir(). -/
theorem validate_restart_notice_iff_changed (h : Host) (self : DirectoriesPrefs)
    (ans : Int) (w : World) (value : String) (hv : self.mTempText = some value)
    (hok : h.IsTempDirectoryNameOK
      ((wxFileName.SetPath value).GetPath wxPATH_GET_VOLUME) = true)
    (hstep :
      ((wxFileName.SetPath value).DirExists w.fs = false ∧ ans = wxYES ∧
        ((wxFileName.SetPath value).Mkdir w.fs 0o755 wxPATH_MKDIR_FULL).1 = true) ∨
      ((wxFileName.SetPath value).DirExists w.fs = true ∧
        (((wxFileName.SetPath value).AppendDir "canicreate").Mkdir w.fs 0o755 0).1 = true)) :
    ∃ w1, Validate h self ans w = some (true, w1) ∧
      w1.trace = w.trace ++ w.since w1 ∧
      (restartBox ∈ w.since w1 ↔
        h.SameAs (wxFileName.SetPath value) (wxFileName.SetPath h.TempDir) = false) := by
  have hrl : ((wxFileName.SetPath value).AppendDir "canicreate").RemoveLastDir
      = wxFileName.SetPath value := by
    simp [wxFileName.AppendDir, wxFileName.RemoveLastDir]
  rcases hstep with ⟨hne, hans, hm⟩ | ⟨hex, hm⟩
  · subst hans
    refine ⟨⟨((wxFileName.SetPath value).Mkdir w.fs 0o755 wxPATH_MKDIR_FULL).2, w.trace ++
      ([Event.DirExists (wxFileName.SetPath value),
        createPromptBox ((wxFileName.SetPath value).GetPath wxPATH_GET_VOLUME),
        Event.Mkdir (wxFileName.SetPath value) 0o755 wxPATH_MKDIR_FULL] ++
        if h.SameAs (wxFileName.SetPath value) (wxFileName.SetPath h.TempDir) = false
        then [restartBox] else [])⟩, ?_, ?_, ?_⟩
    · cases hs : h.SameAs (wxFileName.SetPath value) (wxFileName.SetPath h.TempDir) <;>
        simp [Validate, hv, hok, hne, World.emit, createPromptBox, restartBox, hm, hs]
    · rw [World.since_append]
    · rw [World.since_append]
      cases hs : h.SameAs (wxFileName.SetPath value) (wxFileName.SetPath h.TempDir) <;>
        simp [createPromptBox, restartBox, restartMessage, XO, TranslatableString.Format]
  · refine ⟨⟨(((wxFileName.SetPath value).AppendDir "canicreate").Rmdir
        (((wxFileName.SetPath value).AppendDir "canicreate").Mkdir w.fs 0o755 0).2).2,
      w.trace ++
      ([Event.DirExists (wxFileName.SetPath value),
        Event.Mkdir ((wxFileName.SetPath value).AppendDir "canicreate") 0o755 0,
        Event.Rmdir ((wxFileName.SetPath value).AppendDir "canicreate")] ++
        if h.SameAs (wxFileName.SetPath value) (wxFileName.SetPath h.TempDir) = false
        then [restartBox] else [])⟩, ?_, ?_, ?_⟩
    · cases hs : h.SameAs (wxFileName.SetPath value) (wxFileName.SetPath h.TempDir) <;>
        simp [Validate, hv, hok, hex, World.emit, restartBox, hm, hs, hrl]
    · rw [World.since_append]
    · rw [World.since_append]
      cases hs : h.SameAs (wxFileName.SetPath value) (wxFileName.SetPath h.TempDir) <;>
        simp [restartBox]


/-- Worked example for C8: /srv exists and is writable, and differs from the
temporary directory in use, so the notice is shown. -/
theorem validate_restart_notice_iff_changed_witness :
    sampleHost.SameAs (wxFileName.SetPath "/srv") (wxFileName.SetPath sampleHost.TempDir) = false ∧
    ∃ w1, Validate sampleHost (samplePanel "/srv") wxYES ⟨sampleTree, []⟩ = some (true, w1) ∧
      w1.trace = [] ++ World.since ⟨sampleTree, []⟩ w1 ∧
      (restartBox ∈ World.since ⟨sampleTree, []⟩ w1 ↔
        sampleHost.SameAs (wxFileName.SetPath "/srv") (wxFileName.SetPath sampleHost.TempDir)
          = false) :=
  ⟨by decide,
    validate_restart_notice_iff_changed sampleHost (samplePanel "/srv") wxYES ⟨sampleTree, []⟩
      "/srv" rfl (by decide) (Or.inr ⟨by decide, by decide⟩)⟩

/-! ## OnTempText -/

/-- Claim C6. For every state of the panel (text control present, or NULL and
read as the empty path) whose Location text does not exist as a directory,
OnTempText returns (it is a total function), puts the "unavailable - above
location doesn't exist" text into the label and the name of the Free Space
box when that box exists, makes the existence query as its only call (no
wxGetDiskSpace), and leaves the directory tree and the Location text as they
were. -/
theorem onTempText_missing_location_unavailable (h : Host) (self : DirectoriesPrefs) (w : World)
    (hmiss : wxDirExists w.fs (self.mTempText.getD "") = false) :
    ∃ p1 w1, OnTempText h self w = (p1, w1) ∧
      p1.mTempText = self.mTempText ∧
      p1.mFreeSpace = self.mFreeSpace.map
        (fun _ => (h.Translation unavailableLabel, h.Translation unavailableLabel)) ∧
      w1.fs = w.fs ∧
      w1.trace = w.trace ++ [Event.wxDirExists (self.mTempText.getD "")] ∧
      (∀ path, Event.wxGetDiskSpace path ∉ w.since w1) := by
  refine ⟨⟨self.mTempText, self.mFreeSpace.map
      (fun _ => (h.Translation unavailableLabel, h.Translation unavailableLabel))⟩,
    ⟨w.fs, w.trace ++ [Event.wxDirExists (self.mTempText.getD "")]⟩, ?_, rfl, rfl, rfl, rfl, ?_⟩
  · obtain ⟨text, space⟩ := self
    cases text <;> cases space <;>
      simp_all [OnTempText, World.emit, unavailableLabel]
  · intro path
    rw [World.since_append]
    simp

/-- Worked example for C6: the text control is NULL. -/
theorem onTempText_missing_location_unavailable_witness :
    wxDirExists sampleTree ((none : Option String).getD "") = false ∧
    ∃ p1 w1, OnTempText sampleHost ⟨none, some ("", "")⟩ ⟨sampleTree, []⟩ = (p1, w1) ∧
      p1.mTempText = none ∧
      p1.mFreeSpace = (some ("", "") : Option (String × String)).map
        (fun _ => (sampleHost.Translation unavailableLabel,
          sampleHost.Translation unavailableLabel)) ∧
      w1.fs = sampleTree ∧
      w1.trace = [] ++ [Event.wxDirExists ((none : Option String).getD "")] ∧
      (∀ path, Event.wxGetDiskSpace path ∉ World.since ⟨sampleTree, []⟩ w1) :=
  ⟨by decide,
    onTempText_missing_location_unavailable sampleHost ⟨none, some ("", "")⟩ ⟨sampleTree, []⟩
      (by decide)⟩

/-- Supporting lemma (failed query): when the location exists and
wxGetDiskSpace fails, the label is the formatted size of the untouched
default-constructed byte count, zero. -/
theorem OnTempText_query_failed (h : Host) (self : DirectoriesPrefs) (w : World)
    (value : String) (name : String × String)
    (hv : self.mTempText = some value) (hf : self.mFreeSpace = some name)
    (hex : wxDirExists w.fs value = true) (hq : h.wxGetDiskSpace value = none) :
    OnTempText h self w =
      (⟨some value, some (h.Translation (h.FormatSize 0), h.Translation (h.FormatSize 0))⟩,
        ⟨w.fs, w.trace ++ [Event.wxDirExists value, Event.wxGetDiskSpace value]⟩) := by
  obtain ⟨text, space⟩ := self
  simp only at hv hf
  subst hv hf
  simp [OnTempText, World.emit, hex, hq]

/-- Claim C7, evaluated where the code departs from it. The directory /srv
exists and the disk-space query on it fails; OnTempText shows the formatted
byte count of zero, "%s bytes" with argument 0, and not the "unavailable"
label. -/
theorem onTempText_shows_byte_count_when_query_fails :
    wxDirExists sampleTree "/srv" = true ∧ sampleHost.wxGetDiskSpace "/srv" = none ∧
      OnTempText sampleHost (samplePanel "/srv") ⟨sampleTree, []⟩ =
        (⟨some "/srv", some (sampleHost.Translation ((XO "%s bytes").Format "0"),
            sampleHost.Translation ((XO "%s bytes").Format "0"))⟩,
          ⟨sampleTree, [Event.wxDirExists "/srv", Event.wxGetDiskSpace "/srv"]⟩) ∧
      sampleHost.Translation ((XO "%s bytes").Format "0")
        ≠ sampleHost.Translation unavailableLabel := by
  decide


/-! ## The wxPATH_UNIX format as a case of the general methods -/

theorem tokenizeIn_unix : ∀ (s cur : List Char),
    wxFileName.tokenizeIn .wxPATH_UNIX s cur = tokenize s cur := by
  intro s
  induction s with
  | nil => intro cur; rfl
  | cons c s ih =>
    intro cur
    simp only [wxFileName.tokenizeIn, tokenize, wxFileName.IsPathSeparator, beq_iff_eq, ih]

theorem SplitVolume_unix (l : List Char) :
    wxFileName.SplitVolume l .wxPATH_UNIX = ([], l) := by
  cases l with
  | nil => simp [wxFileName.SplitVolume, wxFileName.IsMSWUniqueVolumeNamePath, wxFileName.IsUNCPath]
  | cons a l =>
    simp [wxFileName.SplitVolume, wxFileName.IsMSWUniqueVolumeNamePath, wxFileName.IsUNCPath]

/-- In the wxPATH_UNIX format the general SetPath is the SetPath that Validate
and OnTempText use. -/
theorem SetPathIn_unix (s : String) :
    wxFileName.SetPathIn s.data .wxPATH_UNIX = wxFileName.SetPath s := by
  unfold wxFileName.SetPathIn wxFileName.SetPath
  cases hs : s.data with
  | nil => rfl
  | cons c rest =>
    simp only [SplitVolume_unix, tokenizeIn_unix, wxFileName.IsPathSeparator]
    rfl

theorem joinDirsIn_unix (b : Bool) : ∀ ds : List String,
    wxFileName.joinDirsIn '/' b ds = wxFileName.joinDirs b ds := by
  intro ds
  induction ds with
  | nil => rfl
  | cons d ds ih =>
    cases ds with
    | nil => rfl
    | cons e ds =>
      simp only [wxFileName.joinDirsIn, wxFileName.joinDirs, ih]
      rfl

/-- In the wxPATH_UNIX format the general GetPath is the GetPath that Validate
uses. -/
theorem GetPathIn_unix (f : wxFileName) (flags : Nat) :
    f.GetPathIn flags .wxPATH_UNIX = f.GetPath flags := by
  unfold wxFileName.GetPathIn wxFileName.GetPath
  simp only [wxFileName.wxGetVolumeString, wxFileName.GetPathSeparator, joinDirsIn_unix, ite_self,
    String.empty_append]
  rfl

theorem findLast_append_singleton (p : Char → Bool) (c : Char) (hc : p c = true) :
    ∀ m : List Char, wxFileName.findLast p (m ++ [c]) = some m.length := by
  intro m
  induction m with
  | nil => simp [wxFileName.findLast, hc]
  | cons a m ih => simp [wxFileName.findLast, ih]

theorem tokenize_append_sep : ∀ (m cur : List Char),
    tokenize (m ++ ['/']) cur = tokenize m cur := by
  intro m
  induction m with
  | nil =>
    intro cur
    cases cur <;> simp [tokenize]
  | cons a m ih =>
    intro cur
    have e1 := ih []
    have e2 := ih (a :: cur)
    simp only [List.cons_append, tokenize, List.append_eq, e1, e2]

theorem IsUNCPath_unix (l : List Char) : wxFileName.IsUNCPath l .wxPATH_UNIX = false := by
  unfold wxFileName.IsUNCPath
  split
  · next hf => cases hf
  · rfl

theorem SetPathIn_unix_volume (l : List Char) :
    (wxFileName.SetPathIn l .wxPATH_UNIX).m_volume = "" := by
  cases l with
  | nil => rfl
  | cons a l =>
    simp only [wxFileName.SetPathIn, SplitVolume_unix]

theorem SetPathIn_unix_trailing (m : List Char) :
    wxFileName.SetPathIn ((m ++ ['/']).take (if m.length = 0 then 1 else m.length)) .wxPATH_UNIX
      = wxFileName.SetPathIn (m ++ ['/']) .wxPATH_UNIX := by
  cases m with
  | nil => rfl
  | cons c m =>
    have ht : ((c :: m) ++ ['/']).take (if (c :: m).length = 0 then 1 else (c :: m).length)
        = c :: m := by
      simp
    rw [ht]
    simp only [wxFileName.SetPathIn, List.cons_append, SplitVolume_unix, tokenizeIn_unix]
    rw [← List.cons_append, tokenize_append_sep]

/-- In the wxPATH_UNIX format AssignDir builds the object SetPath builds. -/
theorem AssignDir_unix (dir : String) :
    wxFileName.AssignDir dir .wxPATH_UNIX = wxFileName.SetPath dir := by
  rw [← SetPathIn_unix]
  unfold wxFileName.AssignDir wxFileName.Assign
  simp only [SplitVolume_unix, IsUNCPath_unix, Bool.false_eq_true, if_false]
  have hvol : ∀ l : List Char,
      ({ wxFileName.SetPathIn l .wxPATH_UNIX with m_volume := String.mk [] } : wxFileName)
        = wxFileName.SetPathIn l .wxPATH_UNIX := by
    intro l
    have := SetPathIn_unix_volume l
    cases hf : wxFileName.SetPathIn l .wxPATH_UNIX with
    | mk v r ds =>
      rw [hf] at this
      simp only at this
      subst this
      rfl
  rw [hvol]
  cases hl : dir.data.getLast? with
  | none =>
    have : dir.data = [] := List.getLast?_eq_none_iff.mp hl
    simp [this, wxFileName.findLast]
  | some last =>
    have hne : dir.data ≠ [] := by
      intro h0
      rw [h0] at hl
      simp at hl
    have hdec : dir.data = dir.data.dropLast ++ [last] := by
      have h1 := List.dropLast_append_getLast? last hl
      exact h1.symm
    simp only
    by_cases hsep : wxFileName.IsPathSeparator last .wxPATH_UNIX = true
    · have hlast : last = '/' := by simpa [wxFileName.IsPathSeparator] using hsep
      subst hlast
      rw [if_pos hsep]
      have hterm : wxFileName.IsPathTerminator '/' .wxPATH_UNIX = true := rfl
      conv_lhs => rw [hdec]
      rw [findLast_append_singleton _ '/' hterm]
      simp only
      rw [SetPathIn_unix_trailing, ← hdec]
    · rw [if_neg hsep]
      have hterm : wxFileName.IsPathTerminator (wxFileName.GetPathSeparator .wxPATH_UNIX)
          .wxPATH_UNIX = true := rfl
      rw [findLast_append_singleton _ _ hterm]
      simp only
      have hlen : dir.data.length ≠ 0 := by
        intro h0
        exact hne (List.length_eq_zero.mp h0)
      rw [if_neg hlen]
      simp

/-! ## OnTempBrowse -/

theorem OnTempText_mTempText (h : Host) (self : DirectoriesPrefs) (w : World) :
    (OnTempText h self w).1.mTempText = self.mTempText := by
  unfold OnTempText
  cases self.mFreeSpace <;> rfl

theorem newDirName_isSegment (p : Platform) : IsSegment (newDirName p) := by
  cases p <;> exact ⟨by decide, by decide⟩

/-- Supporting lemma (chosen directory): after a choice that is neither
cancelled nor empty, the Location text is the printed path object the handler
computed, with the appending test exactly as the source writes it. -/
theorem OnTempBrowse_chosen (h : Host) (self : DirectoriesPrefs) (retval : Int)
    (dlogPath : String) (w : World) (cur : String) (hv : self.mTempText = some cur)
    (hr : retval ≠ wxID_CANCEL) (hd : dlogPath.data ≠ []) :
    ∃ q : DirectoriesPrefs × World, OnTempBrowse h self retval dlogPath w = some q ∧
      q.1.mTempText = some
        ((if (!h.SameAs (wxFileName.AssignDir dlogPath (wxPATH_NATIVE h.platform))
                (wxFileName.mk2 h.DefaultTempDir "" (wxPATH_NATIVE h.platform)) &&
              !h.SameAs (wxFileName.AssignDir dlogPath (wxPATH_NATIVE h.platform))
                (wxFileName.mk2 cur "" (wxPATH_NATIVE h.platform)) &&
              ((wxFileName.AssignDir dlogPath (wxPATH_NATIVE h.platform)).m_dirs.length == 0 ||
                (wxFileName.AssignDir dlogPath (wxPATH_NATIVE h.platform)).m_dirs.getLast?
                  != some (newDirName h.platform)))
              = true
          then (wxFileName.AssignDir dlogPath (wxPATH_NATIVE h.platform)).AppendDir
            (newDirName h.platform)
          else wxFileName.AssignDir dlogPath (wxPATH_NATIVE h.platform)).GetPathIn
            (wxPATH_GET_VOLUME ||| wxPATH_GET_SEPARATOR) (wxPATH_NATIVE h.platform)) := by
  have hne : dlogPath.data.isEmpty = false := by simpa using hd
  have hb : (retval != wxID_CANCEL) = true := by simpa using hr
  unfold OnTempBrowse
  simp only [hv, hne, hb, Bool.not_false, Bool.and_self, if_true, wxFileName.GetDirs]
  refine ⟨_, rfl, ?_⟩
  rw [OnTempText_mTempText]
  unfold SetValue
  rw [OnTempText_mTempText]

theorem SetPath_volume (s : String) : (wxFileName.SetPath s).m_volume = "" := by
  unfold wxFileName.SetPath
  cases s.data <;> rfl

/-- Claim C9, as amended. The session-directory name is SessionData on macOS
and on Windows and .audacity_temp elsewhere. When the chooser is cancelled or
returns the empty path, OnTempBrowse leaves the panel as it was. Otherwise,
with the Location box holding `cur` and T the path object of the chosen
directory d in the native format of the build, the new Location text is T
printed with volume and trailing separator (not the string d itself) when T
is SameAs the object of DefaultTempDir(), or SameAs the object of `cur`, or
already has the session-directory name as its last segment; in every other
case it is the print of T with exactly that one segment appended. In a build
with Unix paths the new text parses back to the object that was printed. -/
theorem onTempBrowse_appends_session_directory_once (h : Host) (self : DirectoriesPrefs)
    (retval : Int) (dlogPath : String) (w : World) (cur : String)
    (hv : self.mTempText = some cur) :
    (newDirName Platform.WXMAC = "SessionData" ∧ newDirName Platform.WXMSW = "SessionData" ∧
      newDirName Platform.other = ".audacity_temp") ∧
    ((retval = wxID_CANCEL ∨ dlogPath.data = []) →
      ∃ w1, OnTempBrowse h self retval dlogPath w = some (self, w1)) ∧
    (retval ≠ wxID_CANCEL → dlogPath.data ≠ [] →
      ∃ (q : DirectoriesPrefs × World) (newText : String),
        OnTempBrowse h self retval dlogPath w = some q ∧ q.1.mTempText = some newText ∧
        ((h.SameAs (wxFileName.AssignDir dlogPath (wxPATH_NATIVE h.platform))
            (wxFileName.AssignDir h.DefaultTempDir (wxPATH_NATIVE h.platform)) = true ∨
          h.SameAs (wxFileName.AssignDir dlogPath (wxPATH_NATIVE h.platform))
            (wxFileName.AssignDir cur (wxPATH_NATIVE h.platform)) = true ∨
          (wxFileName.AssignDir dlogPath (wxPATH_NATIVE h.platform)).m_dirs.getLast?
            = some (newDirName h.platform)) →
            newText = (wxFileName.AssignDir dlogPath (wxPATH_NATIVE h.platform)).GetPathIn
              (wxPATH_GET_VOLUME ||| wxPATH_GET_SEPARATOR) (wxPATH_NATIVE h.platform) ∧
            (wxPATH_NATIVE h.platform = wxPathFormat.wxPATH_UNIX →
              wxFileName.SetPath newText
                = wxFileName.AssignDir dlogPath (wxPATH_NATIVE h.platform))) ∧
        (¬ (h.SameAs (wxFileName.AssignDir dlogPath (wxPATH_NATIVE h.platform))
            (wxFileName.AssignDir h.DefaultTempDir (wxPATH_NATIVE h.platform)) = true ∨
          h.SameAs (wxFileName.AssignDir dlogPath (wxPATH_NATIVE h.platform))
            (wxFileName.AssignDir cur (wxPATH_NATIVE h.platform)) = true ∨
          (wxFileName.AssignDir dlogPath (wxPATH_NATIVE h.platform)).m_dirs.getLast?
            = some (newDirName h.platform)) →
            newText = wxFileName.GetPathIn
              ⟨(wxFileName.AssignDir dlogPath (wxPATH_NATIVE h.platform)).m_volume,
                (wxFileName.AssignDir dlogPath (wxPATH_NATIVE h.platform)).m_relative,
                (wxFileName.AssignDir dlogPath (wxPATH_NATIVE h.platform)).m_dirs
                  ++ [newDirName h.platform]⟩
              (wxPATH_GET_VOLUME ||| wxPATH_GET_SEPARATOR) (wxPATH_NATIVE h.platform) ∧
            (wxPATH_NATIVE h.platform = wxPathFormat.wxPATH_UNIX →
              wxFileName.SetPath newText =
                ⟨(wxFileName.AssignDir dlogPath (wxPATH_NATIVE h.platform)).m_volume,
                  (wxFileName.AssignDir dlogPath (wxPATH_NATIVE h.platform)).m_relative,
                  (wxFileName.AssignDir dlogPath (wxPATH_NATIVE h.platform)).m_dirs
                    ++ [newDirName h.platform]⟩))) := by
  refine ⟨⟨rfl, rfl, rfl⟩, ?_, ?_⟩
  · intro hc
    have hcond : (retval != wxID_CANCEL && !dlogPath.data.isEmpty) = false := by
      rcases hc with hc | hc
      · simp [hc]
      · simp [hc]
    unfold OnTempBrowse
    simp only [hcond, Bool.false_eq_true, if_false]
    exact ⟨_, rfl⟩
  · intro hr hd
    obtain ⟨q, hq, ht⟩ := OnTempBrowse_chosen h self retval dlogPath w cur hv hr hd
    generalize hT : wxFileName.AssignDir dlogPath (wxPATH_NATIVE h.platform) = T at ht ⊢
    have hmkD : wxFileName.mk2 h.DefaultTempDir "" (wxPATH_NATIVE h.platform)
        = wxFileName.AssignDir h.DefaultTempDir (wxPATH_NATIVE h.platform) := rfl
    have hmkC : wxFileName.mk2 cur "" (wxPATH_NATIVE h.platform)
        = wxFileName.AssignDir cur (wxPATH_NATIVE h.platform) := rfl
    rw [hmkD, hmkC] at ht
    have hlast : (T.m_dirs.length == 0 || T.m_dirs.getLast? != some (newDirName h.platform))
        = true ↔ ¬ T.m_dirs.getLast? = some (newDirName h.platform) := by
      cases hds : T.m_dirs with
      | nil => simp
      | cons a as => simp
    have hunix : wxPATH_NATIVE h.platform = wxPathFormat.wxPATH_UNIX →
        T.m_volume = "" ∧ ∀ d ∈ T.m_dirs, IsSegment d := by
      intro hfmt
      rw [hfmt, AssignDir_unix] at hT
      subst hT
      exact ⟨SetPath_volume dlogPath, SetPath_isSegment dlogPath⟩
    refine ⟨q, _, hq, ht, ?_, ?_⟩
    · intro hkeep
      have hc : (!h.SameAs T (wxFileName.AssignDir h.DefaultTempDir (wxPATH_NATIVE h.platform)) &&
          !h.SameAs T (wxFileName.AssignDir cur (wxPATH_NATIVE h.platform)) &&
          (T.m_dirs.length == 0 || T.m_dirs.getLast? != some (newDirName h.platform)))
          = false := by
        rcases hkeep with hk | hk | hk
        · simp [hk]
        · simp [hk]
        · have : (T.m_dirs.length == 0 || T.m_dirs.getLast? != some (newDirName h.platform))
              = false := by
            rw [← Bool.not_eq_true, hlast]
            exact not_not.mpr hk
          rw [this]
          simp
      rw [hc]
      simp only [Bool.false_eq_true, if_false, true_and]
      intro hfmt
      obtain ⟨hvol, hseg⟩ := hunix hfmt
      rw [hfmt, GetPathIn_unix]
      exact SetPath_GetPath T hvol hseg _
    · intro hkeep
      have hc : (!h.SameAs T (wxFileName.AssignDir h.DefaultTempDir (wxPATH_NATIVE h.platform)) &&
          !h.SameAs T (wxFileName.AssignDir cur (wxPATH_NATIVE h.platform)) &&
          (T.m_dirs.length == 0 || T.m_dirs.getLast? != some (newDirName h.platform)))
          = true := by
        have h1 : h.SameAs T (wxFileName.AssignDir h.DefaultTempDir (wxPATH_NATIVE h.platform))
            = false := by
          rw [← Bool.not_eq_true]
          exact fun hx => hkeep (Or.inl hx)
        have h2 : h.SameAs T (wxFileName.AssignDir cur (wxPATH_NATIVE h.platform)) = false := by
          rw [← Bool.not_eq_true]
          exact fun hx => hkeep (Or.inr (Or.inl hx))
        have h3 := hlast.mpr (fun hx => hkeep (Or.inr (Or.inr hx)))
        rw [h1, h2, h3]
        rfl
      rw [hc]
      simp only [if_true]
      refine ⟨rfl, ?_⟩
      intro hfmt
      obtain ⟨hvol, hseg⟩ := hunix hfmt
      rw [hfmt, GetPathIn_unix]
      have hsegA : ∀ d ∈ (T.AppendDir (newDirName h.platform)).m_dirs, IsSegment d := by
        intro d hdm
        simp only [wxFileName.AppendDir, List.mem_append, List.mem_singleton] at hdm
        rcases hdm with hdm | rfl
        · exact hseg d hdm
        · exact newDirName_isSegment _
      exact SetPath_GetPath (T.AppendDir (newDirName h.platform)) hvol hsegA _

/-- Worked examples for C9 on the three platforms: a plain directory gets the
session directory appended; the default directory, the directory already in
the Location box and a directory that already ends in the session-directory
name are kept; a cancelled chooser changes nothing. -/
theorem onTempBrowse_appends_session_directory_once_witness :
    (∃ q, OnTempBrowse sampleHost (samplePanel "/data/audacity_temp") wxID_OK "/home/u"
        ⟨sampleTree, []⟩ = some q ∧ q.1.mTempText = some "/home/u/.audacity_temp/") ∧
    (∃ q, OnTempBrowse sampleHost (samplePanel "/data/audacity_temp") wxID_OK
        "/var/tmp/audacity-u" ⟨sampleTree, []⟩ = some q ∧
        q.1.mTempText = some "/var/tmp/audacity-u/") ∧
    (∃ q, OnTempBrowse sampleHost (samplePanel "/data/audacity_temp") wxID_OK
        "/data/audacity_temp" ⟨sampleTree, []⟩ = some q ∧
        q.1.mTempText = some "/data/audacity_temp/") ∧
    (∃ q, OnTempBrowse sampleHost (samplePanel "/data/audacity_temp") wxID_OK
        "/home/u/.audacity_temp" ⟨sampleTree, []⟩ = some q ∧
        q.1.mTempText = some "/home/u/.audacity_temp/") ∧
    (∃ q, OnTempBrowse sampleHostMAC (samplePanel "/Volumes/b/SessionData") wxID_OK
        "/Users/me/Music" ⟨sampleTree, []⟩ = some q ∧
        q.1.mTempText = some "/Users/me/Music/SessionData/") ∧
    (∃ q, OnTempBrowse sampleHostMSW (samplePanel "D:\\audio") wxID_OK
        "C:\\Users\\me" ⟨sampleTree, []⟩ = some q ∧
        q.1.mTempText = some "C:\\Users\\me\\SessionData\\") ∧
    (∃ q, OnTempBrowse sampleHostMSW (samplePanel "D:\\audio") wxID_OK
        "C:\\Users\\me\\SessionData" ⟨sampleTree, []⟩ = some q ∧
        q.1.mTempText = some "C:\\Users\\me\\SessionData\\") ∧
    (∃ w1, OnTempBrowse sampleHost (samplePanel "/data/audacity_temp") wxID_CANCEL "/home/u"
        ⟨sampleTree, []⟩ = some (samplePanel "/data/audacity_temp", w1)) := by
  refine ⟨?_, ?_, ?_, ?_, ?_, ?_, ?_, ?_⟩
  · obtain ⟨q, t, hq, ht, _, happ⟩ :=
      (onTempBrowse_appends_session_directory_once sampleHost (samplePanel "/data/audacity_temp")
        wxID_OK "/home/u" ⟨sampleTree, []⟩ "/data/audacity_temp" rfl).2.2 (by decide) (by decide)
    exact ⟨q, hq, by rw [ht, (happ (by decide)).1]; decide⟩
  · obtain ⟨q, t, hq, ht, hkeep, _⟩ :=
      (onTempBrowse_appends_session_directory_once sampleHost (samplePanel "/data/audacity_temp")
        wxID_OK "/var/tmp/audacity-u" ⟨sampleTree, []⟩ "/data/audacity_temp" rfl).2.2
        (by decide) (by decide)
    exact ⟨q, hq, by rw [ht, (hkeep (by decide)).1]; decide⟩
  · obtain ⟨q, t, hq, ht, hkeep, _⟩ :=
      (onTempBrowse_appends_session_directory_once sampleHost (samplePanel "/data/audacity_temp")
        wxID_OK "/data/audacity_temp" ⟨sampleTree, []⟩ "/data/audacity_temp" rfl).2.2
        (by decide) (by decide)
    exact ⟨q, hq, by rw [ht, (hkeep (by decide)).1]; decide⟩
  · obtain ⟨q, t, hq, ht, hkeep, _⟩ :=
      (onTempBrowse_appends_session_directory_once sampleHost (samplePanel "/data/audacity_temp")
        wxID_OK "/home/u/.audacity_temp" ⟨sampleTree, []⟩ "/data/audacity_temp" rfl).2.2
        (by decide) (by decide)
    exact ⟨q, hq, by rw [ht, (hkeep (by decide)).1]; decide⟩
  · obtain ⟨q, t, hq, ht, _, happ⟩ :=
      (onTempBrowse_appends_session_directory_once sampleHostMAC
        (samplePanel "/Volumes/b/SessionData") wxID_OK "/Users/me/Music" ⟨sampleTree, []⟩
        "/Volumes/b/SessionData" rfl).2.2 (by decide) (by decide)
    exact ⟨q, hq, by rw [ht, (happ (by decide)).1]; decide⟩
  · obtain ⟨q, t, hq, ht, _, happ⟩ :=
      (onTempBrowse_appends_session_directory_once sampleHostMSW (samplePanel "D:\\audio")
        wxID_OK "C:\\Users\\me" ⟨sampleTree, []⟩ "D:\\audio" rfl).2.2 (by decide) (by decide)
    exact ⟨q, hq, by rw [ht, (happ (by decide)).1]; decide⟩
  · obtain ⟨q, t, hq, ht, hkeep, _⟩ :=
      (onTempBrowse_appends_session_directory_once sampleHostMSW (samplePanel "D:\\audio")
        wxID_OK "C:\\Users\\me\\SessionData" ⟨sampleTree, []⟩ "D:\\audio" rfl).2.2
        (by decide) (by decide)
    exact ⟨q, hq, by rw [ht, (hkeep (by decide)).1]; decide⟩
  · exact (onTempBrowse_appends_session_directory_once sampleHost
      (samplePanel "/data/audacity_temp") wxID_CANCEL "/home/u" ⟨sampleTree, []⟩
      "/data/audacity_temp" rfl).2.1 (Or.inl rfl)

/-- Claim C9 as first stated fails on the text itself. The chosen directory is
the string DefaultTempDir() returns, so the claim has the new Location text be
that string; the handler prints the path object with wxPATH_GET_SEPARATOR, and
the text ends in a separator the chosen string does not have. -/
theorem onTempBrowse_text_is_not_the_chosen_string :
    sampleHost.DefaultTempDir = "/var/tmp/audacity-u" ∧
      (OnTempBrowse sampleHost (samplePanel "/data/audacity_temp") wxID_OK "/var/tmp/audacity-u"
          ⟨sampleTree, []⟩).map (fun q => q.1.mTempText)
        = some (some "/var/tmp/audacity-u/") ∧
      ("/var/tmp/audacity-u/" : String) ≠ "/var/tmp/audacity-u" := by
  decide

/-- Supporting lemma (seed of the chooser): the chooser is opened on the value
stored under PreferenceKey(Operation::Open, PathType::_None), or on
DefaultTempDir() when that value is unset or fails the name check. -/
theorem OnTempBrowse_seed (h : Host) (self : DirectoriesPrefs) (w : World) :
    OnTempBrowse h self wxID_CANCEL "" w = some (self, w.emit (Event.ShowModal
      (if h.IsTempDirectoryNameOK
            ((h.gPrefs (Operation.Open, PathType._None)).getD h.DefaultTempDir) = true
        then (h.gPrefs (Operation.Open, PathType._None)).getD h.DefaultTempDir
        else h.DefaultTempDir))) := by
  unfold OnTempBrowse
  cases hok : h.IsTempDirectoryNameOK
      ((h.gPrefs (Operation.Open, PathType._None)).getD h.DefaultTempDir) <;>
    simp [PreferenceKey, hok, wxID_CANCEL]

/-- Claim C10, evaluated where the code departs from it. The preferences hold
/data/audacity_temp under PreferenceKey(Operation::Temp, PathType::_None), the
key the Location box is tied to, and /home/u/Music under
PreferenceKey(Operation::Open, PathType::_None); both pass the name check.
OnTempBrowse opens the chooser on /home/u/Music, not on the stored temporary
directory. -/
theorem onTempBrowse_seeds_chooser_from_open_key :
    sampleHost.gPrefs (PreferenceKey Operation.Temp PathType._None)
        = some "/data/audacity_temp" ∧
      sampleHost.IsTempDirectoryNameOK "/data/audacity_temp" = true ∧
      sampleHost.gPrefs (PreferenceKey Operation.Open PathType._None) = some "/home/u/Music" ∧
      OnTempBrowse sampleHost (samplePanel "/data/audacity_temp") wxID_CANCEL "" ⟨sampleTree, []⟩
        = some (samplePanel "/data/audacity_temp",
            ⟨sampleTree, [Event.ShowModal "/home/u/Music"]⟩) := by
  decide

end Audacity
